import Mathlib

/-!
Shallow embedding of the AMREL carriage-track detection core
(files under src/: ctrackdetector.cpp, adaptivescannero2.cpp,
amreltool.cpp, pt2f.cpp, pt3f.cpp), with theorems checking the
natural-language specification against it.

Machine floats of the C++ code are modelled by exact rationals; a
float division is partial (division by zero stands for the non-finite
IEEE result and is modelled by none).  Machine ints are modelled by
unbounded integers, with C truncated division written explicitly.
-/

namespace AMREL

/-- Integer pixel, as in pt2i.h. -/
structure Pt2i where
  x : ℤ
  y : ℤ
deriving DecidableEq, Repr

/-- 2D float point, as in pt2f.h (floats as rationals). -/
structure Pt2f where
  x : ℚ
  y : ℚ
deriving DecidableEq, Repr

/-- 3D float point, as in pt3f.h (floats as rationals). -/
structure Pt3f where
  x : ℚ
  y : ℚ
  z : ℚ
deriving DecidableEq, Repr

/-- Float division: the divisor-zero case produces a non-finite IEEE
value, modelled by none. -/
def fdiv (a b : ℚ) : Option ℚ :=
  if b = 0 then none else some (a / b)

/-- Pt2f::normalize (pt2f.cpp): n = sqrt(x*x + y*y), then xp /= n and
yp /= n unconditionally.  The square root is an abstract parameter sq;
only sq 0 = 0 is ever needed. -/
def Pt2f.normalize (sq : ℚ → ℚ) (p : Pt2f) : Option Pt2f :=
  let n := sq (p.x * p.x + p.y * p.y)
  match fdiv p.x n, fdiv p.y n with
  | some x, some y => some ⟨x, y⟩
  | _, _ => none

/-- Pt3f::normalize (pt3f.cpp): n = sqrt(x*x + y*y + z*z); the
components are divided by n only under the guard n != 0, so the zero
vector is returned unchanged. -/
def Pt3f.normalize (sq : ℚ → ℚ) (p : Pt3f) : Pt3f :=
  let n := sq (p.x * p.x + p.y * p.y + p.z * p.z)
  if n ≠ 0 then ⟨p.x / n, p.y / n, p.z / n⟩ else p

/-! Status codes of CTrackDetector (ctrackdetector.cpp, lines 27-36). -/

def RESULT_NONE : ℤ := 0
def RESULT_OK : ℤ := 1
def RESULT_FAIL_TOO_NARROW_INPUT : ℤ := -1
def RESULT_FAIL_NO_AVAILABLE_SCAN : ℤ := -2
def RESULT_FAIL_NO_CENTRAL_PLATEAU : ℤ := -3
def RESULT_FAIL_NO_CONSISTENT_SEQUENCE : ℤ := -4
def RESULT_FAIL_NO_BOUNDS : ℤ := -5
def RESULT_FAIL_TOO_HECTIC_PLATEAUX : ℤ := -6
def RESULT_FAIL_TOO_SPARSE_PLATEAUX : ℤ := -7
def RESULT_FAIL_DISCONNECT : ℤ := -8

/-- MAX_TRACK_WIDTH = 6.0f (ctrackdetector.cpp line 38). -/
def MAX_TRACK_WIDTH : ℚ := 6

/-- NOBOUNDS_TOLERANCE = 10 (ctrackdetector.cpp line 40). -/
def NOBOUNDS_TOLERANCE : ℕ := 10

/-- NB_SIDE_TRIALS = 5 (ctrackdetector.cpp line 50). -/
def NB_SIDE_TRIALS : ℕ := 5

/-- Squared Euclidean length of the seed stroke in meters:
p12 = (csize*(p2.x-p1.x), csize*(p2.y-p1.y)) and l12 = |p12|
(CTrackDetector::detect, lines 136-137); the square avoids the
irrational square root, comparisons against it are squared too. -/
def strokeLen2 (csize : ℚ) (p1 p2 : Pt2i) : ℚ :=
  (csize * ((p2.x : ℚ) - (p1.x : ℚ))) ^ 2
    + (csize * ((p2.y : ℚ) - (p1.y : ℚ))) ^ 2

/-- Input-stroke length gate of CTrackDetector::detect (lines 138-143):
l12 < MAX_TRACK_WIDTH fails with RESULT_FAIL_TOO_NARROW_INPUT before
anything is allocated; for nonnegative lengths l12 < 6 iff l12^2 < 36. -/
def narrowCheckStatus (csize : ℚ) (p1 p2 : Pt2i) : Option ℤ :=
  if strokeLen2 csize p1 p2 < MAX_TRACK_WIDTH * MAX_TRACK_WIDTH then
    some RESULT_FAIL_TOO_NARROW_INPUT
  else none

/-! Final pruning of CTrackDetector::detect (lines 216-234). -/

/-- Modelled from the spec: summary statistics of a CarriageTrack
(carriagetrack.cpp is not under src/): relativeShiftLength, nbHoles
and spread, read by the pruning step of detect. -/
structure TrackStats where
  rsl : ℚ
  holes : ℤ
  spread : ℤ
deriving DecidableEq, Repr

/-- Return path of CTrackDetector::detect after both side walks
(lines 216-234): null for NO_CONSISTENT_SEQUENCE, then the
shift-length pruning, then the density pruning, else the track is
returned with the status left as the walks set it. -/
def detectFinal (fct : Option TrackStats) (fstatus : ℤ) (shiftOn : Bool)
    (maxShiftLength : ℚ) (densityOn : Bool) (minDensity : ℤ) :
    Option TrackStats × ℤ :=
  match fct with
  | none => (none, fstatus)
  | some t =>
    if fstatus = RESULT_FAIL_NO_CONSISTENT_SEQUENCE then (none, fstatus)
    else if shiftOn ∧ maxShiftLength < t.rsl then
      (none, RESULT_FAIL_TOO_HECTIC_PLATEAUX)
    else if densityOn ∧ t.spread * (100 - minDensity) < t.holes * 100 then
      (none, RESULT_FAIL_TOO_SPARSE_PLATEAUX)
    else (some t, fstatus)

/-! Plateau retry with lateral shifts in CTrackDetector::track
(standard mode, lines 602-629). -/

/-- One plateau-detection attempt per lateral shift; ok abstracts
whether Plateau::track ends with status PLATEAU_RES_OK (plateau.cpp is
not under src/, so the per-shift outcome is a parameter).  Returns the
kept candidate shift and how many Plateau objects were constructed:
shift 0 first, then +psd and -psd, first OK wins, else the unshifted
candidate is kept. -/
def plateauRetry (ok : ℚ → Bool) (psd : ℚ) : ℚ × ℕ :=
  if ok 0 then (0, 1)
  else if ok psd then (psd, 2)
  else if ok (-psd) then (-psd, 3)
  else (0, 3)

/-! Central-plateau trials of automatic mode (CTrackDetector::detect
with no argument, lines 451-474). -/

/-- Modelled from the spec: outcome of one Plateau::track trial on the
seed scan (plateau.cpp is not under src/): the success flag returned
by track, and the estimated width compared by Plateau::thinerThan. -/
structure Trial where
  ok : Bool
  width : ℚ
deriving DecidableEq, Repr

/-- The lateral probe shifts: tests[2i] = d*(i+1) and
tests[2i+1] = -d*(i+1) for i < NB_SIDE_TRIALS, read in index order
(lines 451-456 and 461). -/
def sideTests (d : ℚ) : List ℚ :=
  (List.range NB_SIDE_TRIALS).flatMap
    (fun i => [d * ((i : ℚ) + 1), -(d * ((i : ℚ) + 1))])

/-- One iteration of the trial loop (lines 461-474): the probe at
shift t sets found when it succeeds, and replaces the running
candidate only when it succeeds and is strictly thinner
(Plateau::thinerThan). -/
def autoStep (res : ℚ → Trial) (acc : Bool × ℚ × Trial) (t : ℚ) :
    Bool × ℚ × Trial :=
  if (res t).ok ∧ (res t).width < acc.2.2.width
  then (acc.1 || (res t).ok, t, res t)
  else (acc.1 || (res t).ok, acc.2.1, acc.2.2)

/-- The trial loop of automatic mode (lines 457-474): the running
candidate starts as the unshifted trial, then the ten lateral probes
run in order.  Result: (found, kept shift, kept trial). -/
def autoCentralSelect (res : ℚ → Trial) (d : ℚ) : Bool × ℚ × Trial :=
  (sideTests d).foldl (autoStep res) ((res 0).ok, 0, res 0)

/-- Concrete trial outcomes: the unshifted trial fails with a small
width, the probe at shift 1 succeeds with a larger width, every other
probe fails. -/
def resEx : ℚ → Trial :=
  fun t => if t = 1 then ⟨true, 5⟩ else ⟨false, 1⟩

/-- Concrete trial outcomes where every trial succeeds with width 1. -/
def resW : ℚ → Trial :=
  fun _ => ⟨true, 1⟩

/-! Scan point collection (CTrackDetector::detect lines 284-298 and
CTrackDetector::track lines 586-600). -/

/-- Modelled from the spec: IPtTileSet::collectPoints (iptileset.cpp
is not under src/) returns whether the tile of cell c is loaded,
appending the points of the cell on success; tileData c = none stands
for a missing tile. -/
def collectCell (tileData : Pt2i → Option (List Pt3f))
    (acc : List Pt3f × ℕ) (c : Pt2i) : List Pt3f × ℕ :=
  match tileData c with
  | none => (acc.1, acc.2 + 1)
  | some l => (acc.1 ++ l, acc.2)

/-- The collection loop over one scan: a cell whose tile is missing
only increments out_count, every later cell is still processed. -/
def collectScan (cells : List Pt2i) (tileData : Pt2i → Option (List Pt3f))
    (out0 : ℕ) : List Pt3f × ℕ :=
  cells.foldl (collectCell tileData) ([], out0)

/-! Seeds file writing (AmrelTool::saveSeeds, amreltool.cpp lines
968-1075, standard branch) and reading (loadSeeds, lines 1078-1120).
Each tile bucket out_seeds[k] stores its strokes as consecutive Pt2i
entries p1, p2, p1, p2, ... -/

/-- Tile index visited by the boustrophedon writing order:
k = j*cot + (j odd ? cot-1-i : i) (line 1061). -/
def boustroIdx (cot j i : ℕ) : ℕ :=
  j * cot + (if j % 2 ≠ 0 then cot - 1 - i else i)

/-- The count field written to the seeds file: the sum of the bucket
sizes over all cot*rot tiles (line 1054), each size counting Pt2i
entries. -/
def savedSeedsCount (cot rot : ℕ) (seeds : ℕ → List Pt2i) : ℕ :=
  ((List.range (cot * rot)).map (fun k => (seeds k).length)).sum

/-- The Pt2i stream written after the count, tiles visited in
boustrophedon order (lines 1057-1071). -/
def savedSeedsPoints (cot rot : ℕ) (seeds : ℕ → List Pt2i) : List Pt2i :=
  (List.range rot).flatMap (fun j =>
    (List.range cot).flatMap (fun i => seeds (boustroIdx cot j i)))

/-- Grouping of consecutive entries into (p1, p2) stroke pairs, as the
writing loop consumes them two at a time. -/
def pairUp : List Pt2i → List (Pt2i × Pt2i)
  | p :: q :: r => (p, q) :: pairUp r
  | _ => []

/-- The stroke pairs written to the seeds file. -/
def savedSeedsPairs (cot rot : ℕ) (seeds : ℕ → List Pt2i) :
    List (Pt2i × Pt2i) :=
  (List.range rot).flatMap (fun j =>
    (List.range cot).flatMap (fun i => pairUp (seeds (boustroIdx cot j i))))

/-- AmrelTool::loadSeeds (lines 1104-1117) reads nb Pt2i records and
walks them with stride 2, forming nb/2 stroke pairs. -/
def loadSeedsPairs (nb : ℕ) (pts : List Pt2i) : List (Pt2i × Pt2i) :=
  pairUp (pts.take nb)

/-! One side walk of CTrackDetector::track (standard mode, lines
539-701), with the per-scan data abstracted: scanners, point
collection and Plateau::track live partly outside src/, so one
iteration is driven by a ScanOutcome record. -/

/-- Modelled from the spec: what one iteration of the side walk
observes.  dispixEmpty: the display scan was empty; scanExhausted:
some of the subdiv point-cloud scans returned 0 pixels; pixEmpty: no
point-cloud pixel at all; plOk: the kept candidate of plateauRetry has
status PLATEAU_RES_OK; enoughPts: Plateau::hasEnoughPoints;
boundedAccepted: the plateau is bounded and accepted; reliable:
Plateau::reliable (Plateau and CarriageTrack are not under src/). -/
structure ScanOutcome where
  dispixEmpty : Bool
  scanExhausted : Bool
  pixEmpty : Bool
  plOk : Bool
  enoughPts : Bool
  boundedAccepted : Bool
  reliable : Bool
deriving DecidableEq, Repr

/-- Mutable state of one side walk: the search flag, the consecutive
failure count nbfail, confdist, the initial_unbounded flag and the
status the walk wrote (none while untouched). -/
structure WalkState where
  searching : Bool
  nbfail : ℕ
  confdist : ℕ
  unbounded : Bool
  status : Option ℤ
deriving DecidableEq, Repr

/-- Walk state on entering the loop: search true, nbfail 0,
confdist 1, no status written; unbounded is what detect left in
initial_unbounded after the central plateau. -/
def walkInit (unbounded : Bool) : WalkState :=
  ⟨true, 0, 1, unbounded, none⟩

/-- One iteration of the side-walk loop at scan number num (num is the
absolute value of the C++ num, the two sides being symmetric).  Mirrors
lines 557-700: empty display scan or empty point scan stop the search;
else the plateau block runs: failure counting against
plateau_lack_tolerance (with the density_insensitive escape), then the
start-bounds block that fires RESULT_FAIL_NO_BOUNDS at scan number
NOBOUNDS_TOLERANCE while unbounded, then confdist update. -/
def walkStep (dins : Bool) (tol : ℕ) (num : ℕ) (o : ScanOutcome)
    (st : WalkState) : WalkState :=
  if o.dispixEmpty then { st with searching := false }
  else
    let s1 := !o.scanExhausted
    if o.pixEmpty then { st with searching := false }
    else
      let fr : ℕ × Bool :=
        if o.plOk then (0, s1)
        else if dins || o.enoughPts then
          (st.nbfail + 1, if st.nbfail + 1 ≥ tol then false else s1)
        else (st.nbfail, s1)
      let bb : Bool × Bool × Option ℤ :=
        if fr.2 ∧ st.unbounded then
          if o.boundedAccepted then (false, fr.2, st.status)
          else if num = NOBOUNDS_TOLERANCE then
            (st.unbounded, false, some RESULT_FAIL_NO_BOUNDS)
          else (st.unbounded, fr.2, st.status)
        else (st.unbounded, fr.2, st.status)
      let conf := if o.plOk ∧ o.reliable then 1 else st.confdist + 1
      ⟨bb.2.1, fr.1, conf, bb.1, bb.2.2⟩

/-- The side walk as a fold over the successive scan outcomes, scan
numbers counting from num upward; it stops as soon as the search flag
drops (the `num != exlimit` guard is inactive in final mode, where
exlimit = 0). -/
def walk (dins : Bool) (tol : ℕ) : List ScanOutcome → ℕ → WalkState →
    WalkState
  | [], _, st => st
  | o :: rest, num, st =>
    if st.searching then walk dins tol rest (num + 1) (walkStep dins tol num o st)
    else st

/-- A full side walk from the first lateral scan. -/
def walkFrom (dins : Bool) (tol : ℕ) (unbounded : Bool)
    (outs : List ScanOutcome) : WalkState :=
  walk dins tol outs 1 (walkInit unbounded)

/-- A lateral scan on which the walk keeps searching without finding
bounds: scans are present, the plateau has status OK but is not
bounded and accepted. -/
def steadyScan (o : ScanOutcome) : Prop :=
  o.dispixEmpty = false ∧ o.scanExhausted = false ∧ o.pixEmpty = false ∧
    o.plOk = true ∧ o.boundedAccepted = false

/-! AdaptiveScannerO2 (adaptivescannero2.cpp).  The steps array is a
list of booleans cycled through by index; loops carry explicit fuel
and return none when the fuel runs out, so every theorem quantifies
over the fuel.  Modelled from the spec: the DirectionalScanner base
constructor (directionalscanner.cpp is not under src/) stores the
rectangle and the pattern and initializes both scan cursors at the
given start pixel. -/

/-- State of an AdaptiveScannerO2: clipping rectangle, pattern,
left/right cursors with their pattern indices, strip support values
dlc1 (upper) and dlc2 (lower), direction (dla, dlb) and the template
direction and thickness kept for bindTo. -/
structure AdScanO2 where
  xmin : ℤ
  ymin : ℤ
  xmax : ℤ
  ymax : ℤ
  steps : List Bool
  lcx : ℤ
  lcy : ℤ
  rcx : ℤ
  rcy : ℤ
  lst2 : ℕ
  rst2 : ℕ
  dla : ℤ
  dlb : ℤ
  dlc1 : ℤ
  dlc2 : ℤ
  templa : ℤ
  templb : ℤ
  templnu : ℤ
deriving DecidableEq, Repr

/-- A cursor position: coordinates and current pattern index. -/
structure Cursor where
  x : ℤ
  y : ℤ
  i : ℕ
deriving DecidableEq, Repr

/-- Forward pattern step (the scan direction): if steps[i] then y++;
x--; i moves forward cyclically. -/
def stepFwd (steps : List Bool) (c : Cursor) : Cursor :=
  ⟨c.x - 1, if steps.getD c.i false then c.y + 1 else c.y,
   (c.i + 1) % steps.length⟩

/-- Backward pattern step: the index moves back cyclically first, then
if steps[i] then y--; x++. -/
def stepBwd (steps : List Bool) (c : Cursor) : Cursor :=
  let j := (c.i + steps.length - 1) % steps.length
  ⟨c.x + 1, if steps.getD j false then c.y - 1 else c.y, j⟩

/-- Guard of the clipping loop preceding pixel emission:
(y < ymin or x >= xmax) and dla*x + dlb*y >= dlc2. -/
def preCond (s : AdScanO2) (c : Cursor) : Prop :=
  (c.y < s.ymin ∨ s.xmax ≤ c.x) ∧ s.dlc2 ≤ s.dla * c.x + s.dlb * c.y

instance (s : AdScanO2) (c : Cursor) : Decidable (preCond s c) := by
  unfold preCond
  infer_instance

/-- Guard of the emission loop:
dla*x + dlb*y >= dlc2 and y < ymax and x >= xmin. -/
def emitCond (s : AdScanO2) (c : Cursor) : Prop :=
  s.dlc2 ≤ s.dla * c.x + s.dlb * c.y ∧ c.y < s.ymax ∧ s.xmin ≤ c.x

instance (s : AdScanO2) (c : Cursor) : Decidable (emitCond s c) := by
  unfold emitCond
  infer_instance

/-- The clipping loop shared by first, nextOnLeft, nextOnRight,
skipLeft and skipRight: steps forward while the position is outside
the rectangle start and still above the lower support line. -/
def preScanLoop (s : AdScanO2) : ℕ → Cursor → Option Cursor
  | 0, c => if preCond s c then none else some c
  | fuel + 1, c =>
    if preCond s c then preScanLoop s fuel (stepFwd s.steps c) else some c

/-- The emission loop: pushes (x, y) then steps forward, while above
the lower support line and inside the rectangle end. -/
def mainScanLoop (s : AdScanO2) : ℕ → Cursor → Option (List Pt2i)
  | 0, c => if emitCond s c then none else some []
  | fuel + 1, c =>
    if emitCond s c then
      (mainScanLoop s fuel (stepFwd s.steps c)).map
        (fun r => ⟨c.x, c.y⟩ :: r)
    else some []

/-- Pixel computation of one scan from a start cursor (the code block
labelled Computes the next scan, identical in all five operations). -/
def computeScan (s : AdScanO2) (fuel : ℕ) (c : Cursor) :
    Option (List Pt2i) :=
  (preScanLoop s fuel c).bind (mainScanLoop s fuel)

/-- AdaptiveScannerO2::first (lines 149-168): emits the central scan
from the left cursor without moving it. -/
def AdScanO2.first (s : AdScanO2) (fuel : ℕ) : Option (List Pt2i) :=
  computeScan s fuel ⟨s.lcx, s.lcy, s.lst2⟩

/-- First re-anchoring loop of nextOnLeft and nextOnRight: while the
cursor is above the upper support line and inside the rectangle, step
forward. -/
def reanchorDown (s : AdScanO2) : ℕ → Cursor → Option Cursor
  | 0, c =>
    if s.xmin < c.x ∧ c.y < s.ymax ∧ s.dlc1 < s.dla * c.x + s.dlb * c.y
    then none else some c
  | fuel + 1, c =>
    if s.xmin < c.x ∧ c.y < s.ymax ∧ s.dlc1 < s.dla * c.x + s.dlb * c.y
    then reanchorDown s fuel (stepFwd s.steps c) else some c

/-- Second re-anchoring loop: while the cursor is below the upper
support line and inside the rectangle, step backward. -/
def reanchorUp (s : AdScanO2) : ℕ → Cursor → Option Cursor
  | 0, c =>
    if c.x < s.xmax - 1 ∧ s.ymin ≤ c.y ∧ s.dla * c.x + s.dlb * c.y < s.dlc1
    then none else some c
  | fuel + 1, c =>
    if c.x < s.xmax - 1 ∧ s.ymin ≤ c.y ∧ s.dla * c.x + s.dlb * c.y < s.dlc1
    then reanchorUp s fuel (stepBwd s.steps c) else some c

/-- Cursor adjustment shared by the four stepping operations: move the
cursor by dy in y, then re-anchor on the upper support line. -/
def adjustCursor (s : AdScanO2) (fuel : ℕ) (c : Cursor) (dy : ℤ) :
    Option Cursor :=
  (reanchorDown s fuel ⟨c.x, c.y + dy, c.i⟩).bind (reanchorUp s fuel)

/-- AdaptiveScannerO2::nextOnLeft (lines 171-208): lcy--, re-anchor,
emit; returns the updated scanner and the scan. -/
def AdScanO2.nextOnLeft (s : AdScanO2) (fuel : ℕ) :
    Option (AdScanO2 × List Pt2i) :=
  (adjustCursor s fuel ⟨s.lcx, s.lcy, s.lst2⟩ (-1)).bind fun c =>
    (computeScan s fuel c).map fun scan =>
      ({ s with lcx := c.x, lcy := c.y, lst2 := c.i }, scan)

/-- AdaptiveScannerO2::nextOnRight (lines 211-247): rcy++, re-anchor,
emit. -/
def AdScanO2.nextOnRight (s : AdScanO2) (fuel : ℕ) :
    Option (AdScanO2 × List Pt2i) :=
  (adjustCursor s fuel ⟨s.rcx, s.rcy, s.rst2⟩ 1).bind fun c =>
    (computeScan s fuel c).map fun scan =>
      ({ s with rcx := c.x, rcy := c.y, rst2 := c.i }, scan)

/-- AdaptiveScannerO2::skipLeft with a scan (lines 250-287):
lcy -= skip, re-anchor, emit. -/
def AdScanO2.skipLeft (s : AdScanO2) (fuel : ℕ) (skip : ℤ) :
    Option (AdScanO2 × List Pt2i) :=
  (adjustCursor s fuel ⟨s.lcx, s.lcy, s.lst2⟩ (-skip)).bind fun c =>
    (computeScan s fuel c).map fun scan =>
      ({ s with lcx := c.x, lcy := c.y, lst2 := c.i }, scan)

/-- AdaptiveScannerO2::skipRight with a scan (lines 290-326):
rcy += skip, re-anchor, emit. -/
def AdScanO2.skipRight (s : AdScanO2) (fuel : ℕ) (skip : ℤ) :
    Option (AdScanO2 × List Pt2i) :=
  (adjustCursor s fuel ⟨s.rcx, s.rcy, s.rst2⟩ skip).bind fun c =>
    (computeScan s fuel c).map fun scan =>
      ({ s with rcx := c.x, rcy := c.y, rst2 := c.i }, scan)

/-- Cursor search of the (c1, c2) constructor (lines 72-87): a do
while loop stepping backward until dla*x + dlb*y reaches the upper
support value. -/
def ctorSearch (steps : List Bool) (dla dlb c1 : ℤ) :
    ℕ → Cursor → Option Cursor
  | 0, _ => none
  | fuel + 1, c =>
    let c2 := stepBwd steps c
    if dla * c2.x + dlb * c2.y < c1 then ctorSearch steps dla dlb c1 fuel c2
    else some c2

/-- The (a, b, c1, c2) constructor (lines 47-87): orders the two
support values, walks the cursor backward from the center onto the
upper support line, initializes the template with the resulting
thickness, and duplicates the left cursor into the right one. -/
def mkAdScanO2Strip (xmin ymin xmax ymax a b c1 c2 : ℤ)
    (steps : List Bool) (cx cy : ℤ) (fuel : ℕ) : Option AdScanO2 :=
  let d1 := if c2 > c1 then c2 else c1
  let d2 := if c2 > c1 then c1 else c2
  (ctorSearch steps a b d1 fuel ⟨cx, cy, 0⟩).map fun c =>
    { xmin := xmin, ymin := ymin, xmax := xmax, ymax := ymax,
      steps := steps,
      lcx := c.x, lcy := c.y, rcx := c.x, rcy := c.y,
      lst2 := c.i, rst2 := c.i,
      dla := a, dlb := b, dlc1 := d1, dlc2 := d2,
      templa := a, templb := b, templnu := d1 - d2 }

/-- AdaptiveScannerO2::bindTo (lines 341-368): direction made
x-positive, then the template thickness is rescaled by the l1 or the
max norm ratio according to the cross comparison
new_n1 * old_ninf > old_n1 * new_ninf, with C truncated integer
division; the new support values are c + nu/2 and c - nu/2. -/
def AdScanO2.bindTo (s : AdScanO2) (a b c : ℤ) : AdScanO2 :=
  let dla := if a < 0 then -a else a
  let dlb := if a < 0 then -b else b
  let c0 := if a < 0 then -c else c
  let oldb := if s.templb < 0 then -s.templb else s.templb
  let oldn1 := s.templa + oldb
  let oldninf := if oldb > s.templa then oldb else s.templa
  let newa := if a < 0 then -a else a
  let newb := if b < 0 then -b else b
  let newn1 := newa + newb
  let newninf := if newb > newa then newb else newa
  let nu :=
    if newn1 * oldninf > oldn1 * newninf then (s.templnu * newn1).tdiv oldn1
    else (s.templnu * newninf).tdiv oldninf
  { s with dla := dla, dlb := dlb,
           dlc1 := c0 + nu.tdiv 2, dlc2 := c0 - nu.tdiv 2 }

/-- Concrete tile store used to evaluate the collection loop: the
tile of cell (1, 0) is missing, every other cell yields one point. -/
def tdEx : Pt2i → Option (List Pt3f) :=
  fun c => if c = ⟨1, 0⟩ then none else some [⟨0, 0, 5⟩]

/-- Concrete seed buckets used to evaluate the seeds-file writer: one
tile holding one stroke, stored as its two Pt2i endpoints. -/
def seedsEx : ℕ → List Pt2i :=
  fun _ => [⟨0, 0⟩, ⟨1, 1⟩]

/-- Claim-side reformulation of the thickness computed by bindTo: the
template thickness rescaled by the norm (l1 or max) whose rational
ratio is larger, as an integer quotient. -/
def bindToNuSpec (ta tb tnu a b : ℤ) : ℤ :=
  max ((tnu * (|a| + |b|)).tdiv (ta + |tb|))
      ((tnu * max |a| |b|).tdiv (max ta |tb|))

/-! Theorems. -/

/-- C10: Pt3f::normalize guards the division by the norm and leaves
the zero vector unchanged, while Pt2f::normalize divides
unconditionally, so on the zero 2D point it divides by zero and the
components are non-finite (modelled by none); sq is the abstract
square root, of which only sq 0 = 0 is used. -/
theorem c10_normalize_zero_guard (sq : ℚ → ℚ) (h : sq 0 = 0) :
    Pt3f.normalize sq ⟨0, 0, 0⟩ = ⟨0, 0, 0⟩ ∧
    Pt2f.normalize sq ⟨0, 0⟩ = none := by
  constructor
  · simp [Pt3f.normalize, h]
  · simp [Pt2f.normalize, h, fdiv]

/-- Witness for c10_normalize_zero_guard at the constant-zero square
root. -/
theorem c10_normalize_zero_guard_witness :
    (fun _ : ℚ => (0 : ℚ)) 0 = 0 ∧
    (Pt3f.normalize (fun _ : ℚ => (0 : ℚ)) ⟨0, 0, 0⟩ = ⟨0, 0, 0⟩ ∧
      Pt2f.normalize (fun _ : ℚ => (0 : ℚ)) ⟨0, 0⟩ = none) :=
  ⟨rfl, c10_normalize_zero_guard (fun _ => 0) rfl⟩

/-- C1 counterexample: a stroke of Euclidean length exactly 6 m (cell
size 1, stroke (0,0)-(6,0)) passes the length gate: detect does not
fail with TOO_NARROW_INPUT there, contrary to the claim that exactly
6 m fails. -/
theorem c1_counterexample :
    strokeLen2 1 ⟨0, 0⟩ ⟨6, 0⟩ = MAX_TRACK_WIDTH * MAX_TRACK_WIDTH ∧
    narrowCheckStatus 1 ⟨0, 0⟩ ⟨6, 0⟩ = none := by
  constructor
  · norm_num [strokeLen2, MAX_TRACK_WIDTH]
  · norm_num [narrowCheckStatus, strokeLen2, MAX_TRACK_WIDTH]

/-- C1 (amended): the length gate of CTrackDetector::detect fails with
RESULT_FAIL_TOO_NARROW_INPUT exactly when the squared stroke length is
below MAX_TRACK_WIDTH squared (length < 6 m), and detection proceeds
exactly when the length is at least 6 m; a stroke of exactly 6 m
proceeds. -/
theorem c1_stroke_length_gate (csize : ℚ) (p1 p2 : Pt2i) :
    (narrowCheckStatus csize p1 p2 = some RESULT_FAIL_TOO_NARROW_INPUT ↔
      strokeLen2 csize p1 p2 < MAX_TRACK_WIDTH * MAX_TRACK_WIDTH) ∧
    (narrowCheckStatus csize p1 p2 = none ↔
      MAX_TRACK_WIDTH * MAX_TRACK_WIDTH ≤ strokeLen2 csize p1 p2) := by
  unfold narrowCheckStatus
  by_cases h : strokeLen2 csize p1 p2 < MAX_TRACK_WIDTH * MAX_TRACK_WIDTH
  · simp [h]
  · simp [h, not_lt.mp h]

/-- Witness for c1_stroke_length_gate: a 3 m stroke fails the gate. -/
theorem c1_stroke_length_gate_witness :
    strokeLen2 1 ⟨0, 0⟩ ⟨3, 0⟩ < MAX_TRACK_WIDTH * MAX_TRACK_WIDTH ∧
    narrowCheckStatus 1 ⟨0, 0⟩ ⟨3, 0⟩ = some RESULT_FAIL_TOO_NARROW_INPUT :=
  ⟨by norm_num [strokeLen2, MAX_TRACK_WIDTH],
    (c1_stroke_length_gate 1 ⟨0, 0⟩ ⟨3, 0⟩).1.mpr
      (by norm_num [strokeLen2, MAX_TRACK_WIDTH])⟩

/-- C6: the final pruning of CTrackDetector::detect.  A non-null
return needs the shift-length bound (when enabled) and the density
bound (when enabled); a shift-length violation returns null with
TOO_HECTIC_PLATEAUX whatever the density is (the shift check runs
first), and a density violation with the shift check passing returns
null with TOO_SPARSE_PLATEAUX. -/
theorem c6_global_pruning (t : TrackStats) (st : ℤ) (so dn : Bool)
    (msl : ℚ) (mind : ℤ)
    (hst : st ≠ RESULT_FAIL_NO_CONSISTENT_SEQUENCE) :
    ((detectFinal (some t) st so msl dn mind).1 ≠ none →
      (so = true → t.rsl ≤ msl) ∧
      (dn = true → t.holes * 100 ≤ t.spread * (100 - mind))) ∧
    (so = true → msl < t.rsl →
      detectFinal (some t) st so msl dn mind =
        (none, RESULT_FAIL_TOO_HECTIC_PLATEAUX)) ∧
    ((so = true → t.rsl ≤ msl) → dn = true →
      t.spread * (100 - mind) < t.holes * 100 →
      detectFinal (some t) st so msl dn mind =
        (none, RESULT_FAIL_TOO_SPARSE_PLATEAUX)) := by
  unfold detectFinal
  by_cases h1 : so = true ∧ msl < t.rsl
  · refine ⟨?_, ?_, ?_⟩
    · simp [hst, h1]
    · intro _ _
      simp [hst, h1]
    · intro hs _ _
      exact absurd (hs h1.1) (not_le.mpr h1.2)
  · by_cases h2 : dn = true ∧ t.spread * (100 - mind) < t.holes * 100
    · refine ⟨?_, ?_, ?_⟩
      · simp [hst, h1, h2]
      · intro hso hlt
        exact absurd ⟨hso, hlt⟩ h1
      · intro _ _ _
        simp [hst, h1, h2]
    · refine ⟨?_, ?_, ?_⟩
      · intro _
        constructor
        · intro hso
          by_contra hle
          exact h1 ⟨hso, not_le.mp hle⟩
        · intro hdn
          by_contra hle
          exact h2 ⟨hdn, not_le.mp hle⟩
      · intro hso hlt
        exact absurd ⟨hso, hlt⟩ h1
      · intro _ hdn hlt
        exact absurd ⟨hdn, hlt⟩ h2

/-- Witness for c6_global_pruning: on a track with relative shift
length 3 against threshold 2, the pruning returns null with status
TOO_HECTIC_PLATEAUX. -/
theorem c6_global_pruning_witness :
    RESULT_FAIL_NO_BOUNDS ≠ RESULT_FAIL_NO_CONSISTENT_SEQUENCE ∧
    (2 : ℚ) < 3 ∧
    detectFinal (some ⟨3, 0, 10⟩) RESULT_FAIL_NO_BOUNDS true 2 true 60 =
      (none, RESULT_FAIL_TOO_HECTIC_PLATEAUX) :=
  ⟨by decide, by norm_num,
    (c6_global_pruning ⟨3, 0, 10⟩ RESULT_FAIL_NO_BOUNDS true true 2 60
      (by decide)).2.1 rfl (by norm_num)⟩

/-- C8: plateau retry during a side walk: the kept candidate is the
first of the shifts 0, +psd, -psd whose Plateau::track status is OK
(the unshifted candidate when none is), and at most three Plateau
candidates are constructed. -/
theorem c8_plateau_retry (ok : ℚ → Bool) (psd : ℚ) :
    (plateauRetry ok psd).1 = (([0, psd, -psd].find? ok).getD 0) ∧
    (plateauRetry ok psd).2 ≤ 3 ∧
    (ok 0 = true → (plateauRetry ok psd).2 = 1) := by
  unfold plateauRetry
  by_cases h0 : ok 0 <;> by_cases hp : ok psd <;> by_cases hm : ok (-psd) <;>
    simp [List.find?, h0, hp, hm]

/-- Witness for c8_plateau_retry when every trial is OK: one candidate
is constructed and the unshifted one is kept. -/
theorem c8_plateau_retry_witness :
    (fun _ : ℚ => true) 0 = true ∧
    (plateauRetry (fun _ : ℚ => true) 1).1 =
      (([0, 1, -1].find? (fun _ : ℚ => true)).getD 0) ∧
    (plateauRetry (fun _ : ℚ => true) 1).2 = 1 :=
  ⟨rfl, (c8_plateau_retry (fun _ : ℚ => true) 1).1,
    (c8_plateau_retry (fun _ : ℚ => true) 1).2.2 rfl⟩

/-- Fold characterization of the scan point collection: the result is
the concatenation of the points of the loaded cells, and out_count
grows by the number of cells whose tile is missing. -/
theorem collectScan_eq (cells : List Pt2i)
    (td : Pt2i → Option (List Pt3f)) (p0 : List Pt3f) (out0 : ℕ) :
    cells.foldl (collectCell td) (p0, out0) =
      (p0 ++ cells.flatMap (fun c => (td c).getD []),
       out0 + cells.countP (fun c => (td c).isNone)) := by
  induction cells generalizing p0 out0 with
  | nil => simp
  | cons c rest ih =>
    rcases h : td c with _ | l <;>
      simp [collectCell, h, ih, List.countP_cons, Nat.add_comm,
        Nat.add_assoc, Nat.add_left_comm]

/-- C9: a cell whose tile is not loaded only increments out_count: the
collected points are those of the same scan without that cell, every
later cell is still processed, and no failure status exists in the
collection loop (its whole effect is the point list and the counter). -/
theorem c9_missing_tile_tolerated (cells1 cells2 : List Pt2i) (c : Pt2i)
    (td : Pt2i → Option (List Pt3f)) (out0 : ℕ) (h : td c = none) :
    (collectScan (cells1 ++ c :: cells2) td out0).1 =
      (collectScan (cells1 ++ cells2) td out0).1 ∧
    (collectScan (cells1 ++ c :: cells2) td out0).2 =
      (collectScan (cells1 ++ cells2) td out0).2 + 1 ∧
    collectScan (cells1 ++ c :: cells2) td out0 =
      ((cells1 ++ c :: cells2).flatMap (fun x => (td x).getD []),
       out0 + (cells1 ++ c :: cells2).countP (fun x => (td x).isNone)) := by
  unfold collectScan
  rw [collectScan_eq, collectScan_eq]
  refine ⟨?_, ?_, rfl⟩
  · simp [h]
  · simp [h, List.countP_append, List.countP_cons]
    omega

/-- Witness for c9_missing_tile_tolerated: three cells, the middle one
with a missing tile. -/
theorem c9_missing_tile_tolerated_witness :
    tdEx ⟨1, 0⟩ = none ∧
    ((collectScan [⟨0, 0⟩, ⟨1, 0⟩, ⟨2, 0⟩] tdEx 0).1 =
      (collectScan [⟨0, 0⟩, ⟨2, 0⟩] tdEx 0).1 ∧
     (collectScan [⟨0, 0⟩, ⟨1, 0⟩, ⟨2, 0⟩] tdEx 0).2 =
      (collectScan [⟨0, 0⟩, ⟨2, 0⟩] tdEx 0).2 + 1 ∧
     collectScan [⟨0, 0⟩, ⟨1, 0⟩, ⟨2, 0⟩] tdEx 0 =
      (([⟨0, 0⟩, ⟨1, 0⟩, ⟨2, 0⟩] : List Pt2i).flatMap
          (fun x => (tdEx x).getD []),
       0 + ([⟨0, 0⟩, ⟨1, 0⟩, ⟨2, 0⟩] : List Pt2i).countP
          (fun x => (tdEx x).isNone))) :=
  ⟨by decide, c9_missing_tile_tolerated [⟨0, 0⟩] [⟨2, 0⟩] ⟨1, 0⟩ tdEx 0
    (by decide)⟩

/-- Splitting a sum over an initial segment. -/
theorem range_sum_split (f : ℕ → ℕ) (a b : ℕ) :
    ∑ k in Finset.range (a + b), f k =
      (∑ k in Finset.range a, f k) + ∑ i in Finset.range b, f (a + i) := by
  induction b with
  | zero => simp
  | succ b ih =>
    rw [show a + (b + 1) = (a + b) + 1 from rfl, Finset.sum_range_succ, ih,
      Finset.sum_range_succ, Nat.add_assoc]

/-- List sum over a range as a Finset sum. -/
theorem sum_map_range_list (f : ℕ → ℕ) (n : ℕ) :
    ((List.range n).map f).sum = ∑ i in Finset.range n, f i := by
  induction n with
  | zero => simp
  | succ n ih => simp [List.range_succ, Finset.sum_range_succ, ih]

/-- Length of a flatMap over a range. -/
theorem length_flatMap_range {α : Type} (g : ℕ → List α) (n : ℕ) :
    ((List.range n).flatMap g).length = ∑ i in Finset.range n, (g i).length := by
  induction n with
  | zero => simp
  | succ n ih => simp [List.range_succ, Finset.sum_range_succ, ih]

/-- Within one row, the boustrophedon visiting order is a permutation
of the tiles of the row. -/
theorem boustro_inner (cot j : ℕ) (f : ℕ → ℕ) :
    ∑ i in Finset.range cot, f (boustroIdx cot j i) =
      ∑ i in Finset.range cot, f (j * cot + i) := by
  unfold boustroIdx
  by_cases h : j % 2 ≠ 0
  · simp only [if_pos h]
    exact Finset.sum_range_reflect (fun i => f (j * cot + i)) cot
  · simp only [if_neg h]

/-- A double sum over rows and columns equals the sum over all tile
indices. -/
theorem double_sum_range (f : ℕ → ℕ) (cot rot : ℕ) :
    (∑ j in Finset.range rot, ∑ i in Finset.range cot, f (j * cot + i)) =
      ∑ k in Finset.range (cot * rot), f k := by
  induction rot with
  | zero => simp
  | succ r ih =>
    rw [Finset.sum_range_succ, ih,
      show cot * (r + 1) = cot * r + cot from by ring, range_sum_split]
    congr 1
    · exact Finset.sum_congr rfl (fun i _ => by rw [Nat.mul_comm])

/-- pairUp distributes over an append at an even cut. -/
theorem pairUp_append : ∀ (l1 l2 : List Pt2i), l1.length % 2 = 0 →
    pairUp (l1 ++ l2) = pairUp l1 ++ pairUp l2
  | [], _, _ => by simp [pairUp]
  | [p], _, h => by simp at h
  | p :: q :: r, l2, h => by
    have hr : r.length % 2 = 0 := by
      simp only [List.length_cons] at h
      omega
    simp [pairUp, pairUp_append r l2 hr]

/-- An even-length list yields half as many pairs. -/
theorem pairUp_length : ∀ l : List Pt2i, l.length % 2 = 0 →
    2 * (pairUp l).length = l.length
  | [], _ => rfl
  | [p], h => by simp at h
  | p :: q :: r, h => by
    have hr : r.length % 2 = 0 := by
      simp only [List.length_cons] at h
      omega
    have := pairUp_length r hr
    simp only [pairUp, List.length_cons]
    omega

/-- A flatMap of even-length pieces has even length. -/
theorem flatMap_range_even (g : ℕ → List Pt2i) (n : ℕ)
    (h : ∀ i, (g i).length % 2 = 0) :
    ((List.range n).flatMap g).length % 2 = 0 := by
  induction n with
  | zero => rfl
  | succ n ih =>
    have := h n
    simp only [List.range_succ, List.flatMap_append, List.length_append,
      List.flatMap_cons, List.flatMap_nil, List.append_nil]
    omega

/-- pairUp commutes with a flatMap of even-length pieces. -/
theorem pairUp_flatMap_range (g : ℕ → List Pt2i) (n : ℕ)
    (h : ∀ i, (g i).length % 2 = 0) :
    pairUp ((List.range n).flatMap g) =
      (List.range n).flatMap (fun i => pairUp (g i)) := by
  induction n with
  | zero => rfl
  | succ n ih =>
    simp only [List.range_succ, List.flatMap_append, List.flatMap_cons,
      List.flatMap_nil, List.append_nil]
    rw [pairUp_append _ _ (flatMap_range_even g n h), ih]

/-- C5 counterexample: with a single tile holding one stroke (two
Pt2i records), saveSeeds writes count = 2 while only 1 stroke pair
follows, so the count field does not equal the number of stroke
pairs. -/
theorem c5_counterexample :
    savedSeedsCount 1 1 seedsEx = 2 ∧
    (savedSeedsPairs 1 1 seedsEx).length = 1 ∧ (2 : ℕ) ≠ 1 := by
  refine ⟨?_, ?_, by decide⟩ <;> rfl

/-- C5 (amended): the count field written by saveSeeds equals the
number of Point2i records that follow, which is twice the number of
(p1, p2) stroke pairs, each bucket holding its strokes as consecutive
point pairs; loadSeeds, reading count points with stride 2, recovers
exactly the written pairs. -/
theorem c5_seeds_count (cot rot : ℕ) (seeds : ℕ → List Pt2i)
    (h : ∀ k, (seeds k).length % 2 = 0) :
    savedSeedsCount cot rot seeds = (savedSeedsPoints cot rot seeds).length ∧
    savedSeedsCount cot rot seeds =
      2 * (savedSeedsPairs cot rot seeds).length ∧
    loadSeedsPairs (savedSeedsCount cot rot seeds)
        (savedSeedsPoints cot rot seeds) = savedSeedsPairs cot rot seeds := by
  have hpts : (savedSeedsPoints cot rot seeds).length =
      ∑ k in Finset.range (cot * rot), (seeds k).length := by
    unfold savedSeedsPoints
    rw [length_flatMap_range]
    calc ∑ j in Finset.range rot,
          ((List.range cot).flatMap
            (fun i => seeds (boustroIdx cot j i))).length
        = ∑ j in Finset.range rot, ∑ i in Finset.range cot,
            (seeds (boustroIdx cot j i)).length := by
          exact Finset.sum_congr rfl (fun j _ => length_flatMap_range _ cot)
      _ = ∑ j in Finset.range rot, ∑ i in Finset.range cot,
            (seeds (j * cot + i)).length := by
          exact Finset.sum_congr rfl
            (fun j _ => boustro_inner cot j (fun k => (seeds k).length))
      _ = ∑ k in Finset.range (cot * rot), (seeds k).length :=
          double_sum_range (fun k => (seeds k).length) cot rot
  have hcount : savedSeedsCount cot rot seeds =
      ∑ k in Finset.range (cot * rot), (seeds k).length := by
    unfold savedSeedsCount
    exact sum_map_range_list _ _
  have h1 : savedSeedsCount cot rot seeds =
      (savedSeedsPoints cot rot seeds).length := by rw [hcount, hpts]
  have heven : (savedSeedsPoints cot rot seeds).length % 2 = 0 := by
    rw [hpts, Finset.sum_nat_mod]
    simp [h]
  have hpairs : savedSeedsPairs cot rot seeds =
      pairUp (savedSeedsPoints cot rot seeds) := by
    unfold savedSeedsPairs savedSeedsPoints
    rw [pairUp_flatMap_range _ rot
      (fun j => flatMap_range_even _ cot (fun i => h _))]
    have hin : ∀ j : ℕ,
        pairUp ((List.range cot).flatMap (fun i => seeds (boustroIdx cot j i)))
          = (List.range cot).flatMap
              (fun i => pairUp (seeds (boustroIdx cot j i))) :=
      fun j => pairUp_flatMap_range _ cot (fun i => h _)
    simp only [hin]
  have h2 : savedSeedsCount cot rot seeds =
      2 * (savedSeedsPairs cot rot seeds).length := by
    rw [hpairs, h1]
    exact (pairUp_length _ heven).symm
  refine ⟨h1, h2, ?_⟩
  unfold loadSeedsPairs
  rw [h1, List.take_length, hpairs]

/-- Witness for c5_seeds_count at the one-tile, one-stroke store. -/
theorem c5_seeds_count_witness :
    (seedsEx 0).length % 2 = 0 ∧
    savedSeedsCount 1 1 seedsEx = (savedSeedsPoints 1 1 seedsEx).length ∧
    savedSeedsCount 1 1 seedsEx = 2 * (savedSeedsPairs 1 1 seedsEx).length ∧
    loadSeedsPairs (savedSeedsCount 1 1 seedsEx)
        (savedSeedsPoints 1 1 seedsEx) = savedSeedsPairs 1 1 seedsEx :=
  ⟨by simp [seedsEx], c5_seeds_count 1 1 seedsEx (fun _ => by simp [seedsEx])⟩

/-- The found flag accumulated by the trial loop is the disjunction of
the successes. -/
theorem autoFold_found (res : ℚ → Trial) :
    ∀ (l : List ℚ) (acc : Bool × ℚ × Trial),
      (l.foldl (autoStep res) acc).1 =
        (acc.1 || l.any (fun t => (res t).ok)) := by
  intro l
  induction l with
  | nil => simp
  | cons t rest ih =>
    intro acc
    have hstep : (autoStep res acc t).1 = (acc.1 || (res t).ok) := by
      unfold autoStep
      split
      · rfl
      · rfl
    simp only [List.foldl_cons, List.any_cons, ih, hstep, Bool.or_assoc]

/-- When the running candidate is successful, the trial loop keeps a
successful candidate whose width never grows and is at most the width
of every successful probe. -/
theorem autoFold_min (res : ℚ → Trial) :
    ∀ (l : List ℚ) (acc : Bool × ℚ × Trial), acc.2.2.ok = true →
      (l.foldl (autoStep res) acc).2.2.ok = true ∧
      (l.foldl (autoStep res) acc).2.2.width ≤ acc.2.2.width ∧
      ∀ t ∈ l, (res t).ok = true →
        (l.foldl (autoStep res) acc).2.2.width ≤ (res t).width := by
  intro l
  induction l with
  | nil =>
    intro acc hok
    exact ⟨hok, le_refl _, by simp⟩
  | cons t rest ih =>
    intro acc hok
    rw [List.foldl_cons]
    by_cases hc : (res t).ok = true ∧ (res t).width < acc.2.2.width
    · have hstep : autoStep res acc t = (acc.1 || (res t).ok, t, res t) := by
        unfold autoStep
        exact if_pos hc
      rw [hstep]
      obtain ⟨h1, h2, h3⟩ := ih (acc.1 || (res t).ok, t, res t) hc.1
      refine ⟨h1, le_of_lt (lt_of_le_of_lt h2 hc.2), ?_⟩
      intro u hu hou
      rcases List.mem_cons.mp hu with hu0 | hur
      · subst hu0
        exact h2
      · exact h3 u hur hou
    · have hstep : autoStep res acc t = (acc.1 || (res t).ok, acc.2.1, acc.2.2) := by
        unfold autoStep
        exact if_neg hc
      rw [hstep]
      obtain ⟨h1, h2, h3⟩ := ih (acc.1 || (res t).ok, acc.2.1, acc.2.2) hok
      refine ⟨h1, h2, ?_⟩
      intro u hu hou
      rcases List.mem_cons.mp hu with hu0 | hur
      · subst hu0
        have hle : acc.2.2.width ≤ (res u).width := by
          by_contra hlt
          exact hc ⟨hou, not_le.mp hlt⟩
        exact le_trans h2 hle
      · exact h3 u hur hou

/-- C7 counterexample: when the unshifted trial fails (width 1) and
the probe at shift +d succeeds with width 5, detection is found
successful but the kept central plateau is the failed unshifted
candidate, not the (thinnest) successful one. -/
theorem c7_counterexample :
    (autoCentralSelect resEx 1).1 = true ∧
    (autoCentralSelect resEx 1).2.2 = ⟨false, 1⟩ ∧
    (resEx 1).ok = true := by
  refine ⟨?_, ?_, by norm_num [resEx]⟩ <;>
    norm_num [autoCentralSelect, sideTests, NB_SIDE_TRIALS, List.range_succ,
      autoStep, resEx]

/-- C7 (amended): automatic mode tries the unshifted seed scan plus
NB_SIDE_TRIALS = 5 symmetric probe pairs at shifts k*d and -(k*d),
k = 1..5, in that order; central detection succeeds exactly when some
trial succeeds; and when the unshifted trial succeeds, the kept
plateau is successful and at most as wide as every successful trial.
(When the unshifted trial fails, a successful probe is kept only if
strictly thinner than that failed candidate.) -/
theorem c7_auto_central (res : ℚ → Trial) (d : ℚ)
    (h0 : (res 0).ok = true) :
    (autoCentralSelect res d).1 =
      ((0 :: sideTests d).any (fun t => (res t).ok)) ∧
    sideTests d = [d, -d, d * 2, -(d * 2), d * 3, -(d * 3),
                   d * 4, -(d * 4), d * 5, -(d * 5)] ∧
    (autoCentralSelect res d).2.2.ok = true ∧
    ∀ t ∈ 0 :: sideTests d, (res t).ok = true →
      (autoCentralSelect res d).2.2.width ≤ (res t).width := by
  obtain ⟨h1, h2, h3⟩ :=
    autoFold_min res (sideTests d) ((res 0).ok, 0, res 0) h0
  refine ⟨?_, ?_, h1, ?_⟩
  · unfold autoCentralSelect
    rw [autoFold_found]
    simp [List.any_cons]
  · norm_num [sideTests, NB_SIDE_TRIALS, List.range_succ]
  · intro t ht hok
    rcases List.mem_cons.mp ht with ht0 | htm
    · subst ht0
      exact h2
    · exact h3 t htm hok

/-- Witness for c7_auto_central with every trial succeeding at
width 1: the kept candidate is successful and no wider than the
unshifted trial. -/
theorem c7_auto_central_witness :
    (resW 0).ok = true ∧
    (autoCentralSelect resW 1).2.2.ok = true ∧
    (autoCentralSelect resW 1).2.2.width ≤ (resW 0).width :=
  ⟨rfl, (c7_auto_central resW 1 rfl).2.2.1,
    (c7_auto_central resW 1 rfl).2.2.2 0 (List.mem_cons_self 0 _) rfl⟩

/-- The walk does nothing once the search flag has dropped. -/
theorem walk_stopped (dins : Bool) (tol : ℕ) :
    ∀ (outs : List ScanOutcome) (n : ℕ) (st : WalkState),
      st.searching = false → walk dins tol outs n st = st
  | [], _, _, _ => rfl
  | o :: rest, n, st, h => by simp [walk, h]

/-- If the walk is still searching and unbounded at scan number n and
every scan up to NOBOUNDS_TOLERANCE is steady (present, OK, never
bounded-and-accepted), the walk stops at scan NOBOUNDS_TOLERANCE with
status RESULT_FAIL_NO_BOUNDS. -/
theorem walk_nobounds (dins : Bool) (tol : ℕ) :
    ∀ (outs : List ScanOutcome) (n : ℕ) (st : WalkState),
      st.searching = true → st.unbounded = true →
      1 ≤ n → n ≤ NOBOUNDS_TOLERANCE →
      NOBOUNDS_TOLERANCE + 1 - n ≤ outs.length →
      (∀ k, k < NOBOUNDS_TOLERANCE + 1 - n → ∀ o, outs[k]? = some o →
        steadyScan o) →
      (walk dins tol outs n st).status = some RESULT_FAIL_NO_BOUNDS ∧
      (walk dins tol outs n st).searching = false := by
  intro outs
  induction outs with
  | nil =>
    intro n st _ _ h1 h10 hlen _
    unfold NOBOUNDS_TOLERANCE at h10 hlen
    simp only [List.length_nil] at hlen
    omega
  | cons o rest ih =>
    intro n st hs hu h1 h10 hlen hgood
    have ho : steadyScan o := by
      refine hgood 0 ?_ o (by simp)
      unfold NOBOUNDS_TOLERANCE at h10 ⊢
      omega
    obtain ⟨hd, hx, hp, hok, hb⟩ := ho
    rw [show walk dins tol (o :: rest) n st =
        walk dins tol rest (n + 1) (walkStep dins tol n o st) from by
      simp [walk, hs]]
    by_cases hn : n = NOBOUNDS_TOLERANCE
    · have hsf : (walkStep dins tol n o st).searching = false := by
        unfold walkStep
        simp [hd, hp, hok, hx, hb, hu, hn]
      have hss : (walkStep dins tol n o st).status =
          some RESULT_FAIL_NO_BOUNDS := by
        unfold walkStep
        simp [hd, hp, hok, hx, hb, hu, hn]
      rw [walk_stopped dins tol rest (n + 1) _ hsf]
      exact ⟨hss, hsf⟩
    · have hst : (walkStep dins tol n o st).searching = true := by
        unfold walkStep
        simp [hd, hp, hok, hx, hb, hu, hn]
      have hsu : (walkStep dins tol n o st).unbounded = true := by
        unfold walkStep
        simp [hd, hp, hok, hx, hb, hu, hn]
      refine ih (n + 1) _ hst hsu (by omega) ?_ ?_ ?_
      · unfold NOBOUNDS_TOLERANCE at h10 hn ⊢
        omega
      · simp only [List.length_cons] at hlen
        omega
      · intro k hk o2 ho2
        refine hgood (k + 1) (by omega) o2 ?_
        simpa using ho2

/-- C2 counterexample: ten steady scans (plateau OK, never bounded)
drive the walk into RESULT_FAIL_NO_BOUNDS, yet detect does not return
null: the final pruning still returns the track when the shift-length
and density checks pass, contradicting the claim that detect returns
null whenever NO_BOUNDS is reached. -/
theorem c2_counterexample :
    (walkFrom false 11 true
        (List.replicate 10 ⟨false, false, false, true, true, false, true⟩)).status
      = some RESULT_FAIL_NO_BOUNDS ∧
    (detectFinal (some ⟨1, 0, 10⟩) RESULT_FAIL_NO_BOUNDS true 2 true 60).1
      ≠ none := by
  constructor
  · decide
  · decide

/-- C2 (amended): a side walk that reaches NOBOUNDS_TOLERANCE = 10
scans with only steady scans (no bounded accepted plateau) sets the
status to RESULT_FAIL_NO_BOUNDS and stops searching; but detect(p1,p2)
still returns the non-null track with that status whenever the
shift-length and density prunings pass: NO_BOUNDS does not make detect
return null. -/
theorem c2_no_bounds_keeps_track (dins : Bool) (tol : ℕ)
    (outs : List ScanOutcome) (t : TrackStats) (so dn : Bool) (msl : ℚ)
    (mind : ℤ)
    (hlen : NOBOUNDS_TOLERANCE ≤ outs.length)
    (hgood : ∀ k, k < NOBOUNDS_TOLERANCE → ∀ o, outs[k]? = some o →
      steadyScan o)
    (hrsl : so = true → t.rsl ≤ msl)
    (hden : dn = true → t.holes * 100 ≤ t.spread * (100 - mind)) :
    (walkFrom dins tol true outs).status = some RESULT_FAIL_NO_BOUNDS ∧
    (walkFrom dins tol true outs).searching = false ∧
    detectFinal (some t) RESULT_FAIL_NO_BOUNDS so msl dn mind =
      (some t, RESULT_FAIL_NO_BOUNDS) := by
  have hw := walk_nobounds dins tol outs 1 (walkInit true) rfl rfl
    (le_refl 1) (by unfold NOBOUNDS_TOLERANCE; omega)
    (by unfold NOBOUNDS_TOLERANCE at hlen ⊢; omega)
    (by
      intro k hk o ho
      refine hgood k ?_ o ho
      unfold NOBOUNDS_TOLERANCE at hk ⊢
      omega)
  refine ⟨hw.1, hw.2, ?_⟩
  have hns : ¬(RESULT_FAIL_NO_BOUNDS = RESULT_FAIL_NO_CONSISTENT_SEQUENCE) := by
    decide
  have hsh : ¬(so = true ∧ msl < t.rsl) := fun hcon =>
    absurd (hrsl hcon.1) (not_le.mpr hcon.2)
  have hde : ¬(dn = true ∧ t.spread * (100 - mind) < t.holes * 100) :=
    fun hcon => absurd (hden hcon.1) (not_le.mpr hcon.2)
  simp [detectFinal, hns, hsh, hde]

/-- Witness for c2_no_bounds_keeps_track on ten steady scans and a
track passing both prunings. -/
theorem c2_no_bounds_keeps_track_witness :
    (walkFrom false 11 true
        (List.replicate 10 ⟨false, false, false, true, true, false, true⟩)).status
      = some RESULT_FAIL_NO_BOUNDS ∧
    (walkFrom false 11 true
        (List.replicate 10 ⟨false, false, false, true, true, false, true⟩)).searching
      = false ∧
    detectFinal (some ⟨1, 0, 10⟩) RESULT_FAIL_NO_BOUNDS true 2 true 60 =
      (some ⟨1, 0, 10⟩, RESULT_FAIL_NO_BOUNDS) :=
  c2_no_bounds_keeps_track false 11
    (List.replicate 10 ⟨false, false, false, true, true, false, true⟩)
    ⟨1, 0, 10⟩ true true 2 60 (by decide)
    (by
      intro k hk o ho
      unfold NOBOUNDS_TOLERANCE at hk
      rw [List.getElem?_replicate, if_pos (by omega)] at ho
      cases ho
      exact ⟨rfl, rfl, rfl, rfl, rfl⟩)
    (fun _ => by norm_num) (fun _ => by decide)

/-- Cross comparison of two integer-quotient rescalings: when the
first ratio is at least the second one, so are the quotients. -/
theorem ediv_cross_le (t n1 o1 ninf oinf : ℤ) (ht : 0 ≤ t)
    (hninf : 0 ≤ ninf) (ho1 : 0 < o1) (hoinf : 0 < oinf)
    (hcross : o1 * ninf ≤ n1 * oinf) :
    t * ninf / oinf ≤ t * n1 / o1 := by
  rw [Int.le_ediv_iff_mul_le ho1]
  have hq : t * ninf / oinf * oinf ≤ t * ninf := Int.ediv_mul_le _ hoinf.ne'
  have h2 : t * ninf / oinf * oinf * o1 ≤ t * ninf * o1 :=
    mul_le_mul_of_nonneg_right hq (le_of_lt ho1)
  have h3 : t * (o1 * ninf) ≤ t * (n1 * oinf) :=
    mul_le_mul_of_nonneg_left hcross ht
  have h4 : t * ninf / oinf * o1 * oinf ≤ t * n1 * oinf := by nlinarith
  exact le_of_mul_le_mul_right h4 hoinf

/-- C4 counterexample: with template direction (2, 1) and thickness
10, rebinding to direction (1, 1) gives the cross test
2*2 > 3*1, so the code rescales by the l1 ratio: nu = 10*2/3 = 6 and
dlc1 - dlc2 = 6, while the smaller of the two integer quotients is
min 6 5 = 5: bindTo does not choose the smaller quotient. -/
theorem c4_counterexample :
    ((AdScanO2.bindTo ⟨0, 0, 0, 0, [], 0, 0, 0, 0, 0, 0, 0, 0, 0, 0, 2, 1, 10⟩
        1 1 0).dlc1
      - (AdScanO2.bindTo ⟨0, 0, 0, 0, [], 0, 0, 0, 0, 0, 0, 0, 0, 0, 0, 2, 1, 10⟩
        1 1 0).dlc2 = 6) ∧
    min ((10 * (|(1 : ℤ)| + |(1 : ℤ)|)).tdiv (2 + |(1 : ℤ)|))
        ((10 * max |(1 : ℤ)| |(1 : ℤ)|).tdiv (max 2 |(1 : ℤ)|)) = 5 ∧
    (6 : ℤ) ≠ 5 := by
  refine ⟨?_, by decide, by decide⟩
  decide

/-- C4 (amended): bindTo centers the new strip bounds on the offset
(c, negated with the direction when a < 0): dlc1 = c + nu/2 and
dlc2 = c - nu/2 with truncated halving, so the thickness is nu rounded
down to even; and nu is the template thickness rescaled by whichever
of the l1 and max norm ratios is larger (the larger integer quotient),
not the smaller one. -/
theorem c4_bindTo_bounds (s : AdScanO2) (a b c : ℤ)
    (hta : 0 ≤ s.templa) (htnu : 0 ≤ s.templnu)
    (htnz : ¬(s.templa = 0 ∧ s.templb = 0)) :
    (s.bindTo a b c).dlc1 = (if a < 0 then -c else c)
        + (bindToNuSpec s.templa s.templb s.templnu a b).tdiv 2 ∧
    (s.bindTo a b c).dlc2 = (if a < 0 then -c else c)
        - (bindToNuSpec s.templa s.templb s.templnu a b).tdiv 2 ∧
    (s.bindTo a b c).dlc1 - (s.bindTo a b c).dlc2
        = 2 * ((bindToNuSpec s.templa s.templb s.templnu a b).tdiv 2) ∧
    (s.bindTo a b c).dlc1 + (s.bindTo a b c).dlc2
        = 2 * (if a < 0 then -c else c) := by
  have hifabs : ∀ x : ℤ, (if x < 0 then -x else x) = |x| := by
    intro x
    rcases lt_or_ge x 0 with h | h
    · simp [h, abs_of_neg h]
    · simp [not_lt.mpr h, abs_of_nonneg h]
  have hifmax : ∀ x y : ℤ, (if y > x then y else x) = max x y := by
    intro x y
    rcases lt_or_ge x y with h | h <;> simp [h, not_lt.mpr] <;> omega
  have ho1 : 0 < s.templa + |s.templb| := by
    by_cases hb0 : s.templb = 0
    · have hne : s.templa ≠ 0 := fun h => htnz ⟨h, hb0⟩
      have : 0 < s.templa := lt_of_le_of_ne hta (Ne.symm hne)
      have habs : 0 ≤ |s.templb| := abs_nonneg _
      omega
    · have : 0 < |s.templb| := abs_pos.mpr hb0
      omega
  have hoinf : 0 < max s.templa |s.templb| := by
    by_cases hb0 : s.templb = 0
    · have hne : s.templa ≠ 0 := fun h => htnz ⟨h, hb0⟩
      have h2 : 0 < s.templa := lt_of_le_of_ne hta (Ne.symm hne)
      exact lt_max_of_lt_left h2
    · exact lt_max_of_lt_right (abs_pos.mpr hb0)
  have hnu : (if (|a| + |b|) * (max s.templa |s.templb|) >
        (s.templa + |s.templb|) * (max |a| |b|) then
        (s.templnu * (|a| + |b|)).tdiv (s.templa + |s.templb|)
      else (s.templnu * max |a| |b|).tdiv (max s.templa |s.templb|)) =
      bindToNuSpec s.templa s.templb s.templnu a b := by
    have e1 : (s.templnu * (|a| + |b|)).tdiv (s.templa + |s.templb|) =
        s.templnu * (|a| + |b|) / (s.templa + |s.templb|) :=
      Int.tdiv_eq_ediv (mul_nonneg htnu (by positivity)) (le_of_lt ho1)
    have e2 : (s.templnu * max |a| |b|).tdiv (max s.templa |s.templb|) =
        s.templnu * max |a| |b| / (max s.templa |s.templb|) :=
      Int.tdiv_eq_ediv (mul_nonneg htnu (le_max_of_le_left (abs_nonneg _)))
        (le_of_lt hoinf)
    unfold bindToNuSpec
    rw [e1, e2]
    by_cases hcr : (|a| + |b|) * (max s.templa |s.templb|) >
        (s.templa + |s.templb|) * (max |a| |b|)
    · rw [if_pos hcr]
      refine (max_eq_left ?_).symm
      exact ediv_cross_le s.templnu (|a| + |b|) (s.templa + |s.templb|)
        (max |a| |b|) (max s.templa |s.templb|) htnu
        (le_max_of_le_left (abs_nonneg _)) ho1 hoinf
        (by nlinarith [le_of_lt hcr])
    · rw [if_neg hcr]
      refine (max_eq_right ?_).symm
      exact ediv_cross_le s.templnu (max |a| |b|) (max s.templa |s.templb|)
        (|a| + |b|) (s.templa + |s.templb|) htnu
        (by positivity) hoinf ho1 (by nlinarith [not_lt.mp hcr])
  unfold AdScanO2.bindTo
  dsimp only
  simp only [hifabs, hifmax]
  rw [hnu]
  refine ⟨rfl, rfl, by ring, by ring⟩

/-- Witness for c4_bindTo_bounds at template (2, 1) with thickness 10
rebound to (1, 1) and offset 0. -/
theorem c4_bindTo_bounds_witness :
    (0 : ℤ) ≤ 2 ∧ (0 : ℤ) ≤ 10 ∧ ¬((2 : ℤ) = 0 ∧ (1 : ℤ) = 0) ∧
    ((AdScanO2.bindTo ⟨0, 0, 0, 0, [], 0, 0, 0, 0, 0, 0, 0, 0, 0, 0, 2, 1, 10⟩
        1 1 5).dlc1 = (if (1 : ℤ) < 0 then -5 else 5)
          + (bindToNuSpec 2 1 10 1 1).tdiv 2 ∧
     (AdScanO2.bindTo ⟨0, 0, 0, 0, [], 0, 0, 0, 0, 0, 0, 0, 0, 0, 0, 2, 1, 10⟩
        1 1 5).dlc2 = (if (1 : ℤ) < 0 then -5 else 5)
          - (bindToNuSpec 2 1 10 1 1).tdiv 2 ∧
     (AdScanO2.bindTo ⟨0, 0, 0, 0, [], 0, 0, 0, 0, 0, 0, 0, 0, 0, 0, 2, 1, 10⟩
        1 1 5).dlc1
       - (AdScanO2.bindTo ⟨0, 0, 0, 0, [], 0, 0, 0, 0, 0, 0, 0, 0, 0, 0, 2, 1, 10⟩
        1 1 5).dlc2 = 2 * ((bindToNuSpec 2 1 10 1 1).tdiv 2) ∧
     (AdScanO2.bindTo ⟨0, 0, 0, 0, [], 0, 0, 0, 0, 0, 0, 0, 0, 0, 0, 2, 1, 10⟩
        1 1 5).dlc1
       + (AdScanO2.bindTo ⟨0, 0, 0, 0, [], 0, 0, 0, 0, 0, 0, 0, 0, 0, 0, 2, 1, 10⟩
        1 1 5).dlc2 = 2 * (if (1 : ℤ) < 0 then -5 else 5)) :=
  ⟨by decide, by decide, by decide,
    c4_bindTo_bounds ⟨0, 0, 0, 0, [], 0, 0, 0, 0, 0, 0, 0, 0, 0, 0, 2, 1, 10⟩
      1 1 5 (by decide) (by decide) (by decide)⟩

/-- Below the lower support line the emission loop emits nothing. -/
theorem mainScanLoop_low (s : AdScanO2) (fuel : ℕ) (c : Cursor)
    (h : s.dla * c.x + s.dlb * c.y < s.dlc2) :
    mainScanLoop s fuel c = some [] := by
  have hc : ¬ emitCond s c := fun hc => absurd hc.1 (not_le.mpr h)
  cases fuel with
  | zero => simp [mainScanLoop, hc]
  | succ f => simp [mainScanLoop, hc]

/-- Every pixel emitted by the emission loop lies above the lower
support line and inside the rectangle, provided the loop enters with
x < xmax and ymin <= y (the pre-scan loop guarantees that). -/
theorem mainScanLoop_mem (s : AdScanO2) : ∀ (fuel : ℕ) (c : Cursor)
    (l : List Pt2i), c.x < s.xmax → s.ymin ≤ c.y →
    mainScanLoop s fuel c = some l → ∀ p ∈ l,
      s.dlc2 ≤ s.dla * p.x + s.dlb * p.y ∧ s.xmin ≤ p.x ∧ p.x < s.xmax ∧
      s.ymin ≤ p.y ∧ p.y < s.ymax := by
  intro fuel
  induction fuel with
  | zero =>
    intro c l hx hy heq p hp
    unfold mainScanLoop at heq
    by_cases hc : emitCond s c
    · rw [if_pos hc] at heq
      exact absurd heq (by simp)
    · rw [if_neg hc] at heq
      cases heq
      simp at hp
  | succ f ih =>
    intro c l hx hy heq p hp
    unfold mainScanLoop at heq
    by_cases hc : emitCond s c
    · rw [if_pos hc] at heq
      obtain ⟨r, hr, hl⟩ := Option.map_eq_some'.mp heq
      subst hl
      rcases List.mem_cons.mp hp with hp0 | hpr
      · subst hp0
        exact ⟨hc.1, hc.2.2, hx, hy, hc.2.1⟩
      · refine ih (stepFwd s.steps c) r ?_ ?_ hr p hpr
        · unfold stepFwd
          dsimp only
          omega
        · unfold stepFwd
          dsimp only
          split <;> omega
    · rw [if_neg hc] at heq
      cases heq
      simp at hp

/-- When the pre-scan loop returns, either the position has fallen
below the lower support line, or it satisfies the rectangle entry
conditions of the emission loop. -/
theorem preScanLoop_post (s : AdScanO2) : ∀ (fuel : ℕ) (c c' : Cursor),
    preScanLoop s fuel c = some c' →
    s.dla * c'.x + s.dlb * c'.y < s.dlc2 ∨
      (s.ymin ≤ c'.y ∧ c'.x < s.xmax) := by
  intro fuel
  induction fuel with
  | zero =>
    intro c c' heq
    unfold preScanLoop at heq
    by_cases hc : preCond s c
    · rw [if_pos hc] at heq
      exact absurd heq (by simp)
    · rw [if_neg hc] at heq
      cases heq
      rcases not_and_or.mp hc with h | h
      · push_neg at h
        exact Or.inr ⟨h.1, h.2⟩
      · exact Or.inl (not_le.mp h)
  | succ f ih =>
    intro c c' heq
    unfold preScanLoop at heq
    by_cases hc : preCond s c
    · rw [if_pos hc] at heq
      exact ih _ _ heq
    · rw [if_neg hc] at heq
      cases heq
      rcases not_and_or.mp hc with h | h
      · push_neg at h
        exact Or.inr ⟨h.1, h.2⟩
      · exact Or.inl (not_le.mp h)

/-- Every pixel of a computed scan lies above the lower support line
and inside the rectangle. -/
theorem computeScan_mem (s : AdScanO2) (fuel : ℕ) (c : Cursor)
    (l : List Pt2i) (heq : computeScan s fuel c = some l) :
    ∀ p ∈ l, s.dlc2 ≤ s.dla * p.x + s.dlb * p.y ∧ s.xmin ≤ p.x ∧
      p.x < s.xmax ∧ s.ymin ≤ p.y ∧ p.y < s.ymax := by
  unfold computeScan at heq
  obtain ⟨c', hpre, hmain⟩ := Option.bind_eq_some.mp heq
  rcases preScanLoop_post s fuel c c' hpre with hlow | ⟨hy, hx⟩
  · rw [mainScanLoop_low s fuel c' hlow] at hmain
    cases hmain
    intro p hp
    simp at hp
  · exact mainScanLoop_mem s fuel c' l hx hy hmain

/-- C3 counterexample: the (a, b, c1, c2) constructor with direction
(1, -2), bounds c1 = 2, c2 = 0 and pattern [true] anchors the start
cursor at (1, -1), whose support value 1*1 + (-2)*(-1) = 3 exceeds
dlc1 = 2; first() emits that pixel, so an emitted pixel violates
a*x + b*y <= c1. -/
theorem c3_counterexample :
    mkAdScanO2Strip (-10) (-10) 10 10 1 (-2) 2 0 [true] 0 0 20 =
      some ⟨-10, -10, 10, 10, [true], 1, -1, 1, -1, 0, 0, 1, -2, 2, 0,
        1, -2, 2⟩ ∧
    AdScanO2.first
        ⟨-10, -10, 10, 10, [true], 1, -1, 1, -1, 0, 0, 1, -2, 2, 0, 1, -2, 2⟩
        10 = some [⟨1, -1⟩, ⟨0, 0⟩] ∧
    (⟨1, -1⟩ : Pt2i) ∈ [(⟨1, -1⟩ : Pt2i), ⟨0, 0⟩] ∧
    (⟨-10, -10, 10, 10, [true], 1, -1, 1, -1, 0, 0, 1, -2, 2, 0, 1, -2, 2⟩
        : AdScanO2).dla * 1 +
      (⟨-10, -10, 10, 10, [true], 1, -1, 1, -1, 0, 0, 1, -2, 2, 0, 1, -2, 2⟩
        : AdScanO2).dlb * (-1) >
      (⟨-10, -10, 10, 10, [true], 1, -1, 1, -1, 0, 0, 1, -2, 2, 0, 1, -2, 2⟩
        : AdScanO2).dlc1 := by
  refine ⟨by decide, by decide, by decide, by decide⟩

/-- C3 (amended): every pixel emitted by first, nextOnLeft,
nextOnRight, skipLeft and skipRight of AdaptiveScannerO2 satisfies
c2 <= a*x + b*y and lies inside the configured rectangle
xmin <= x < xmax, ymin <= y < ymax; the upper bound a*x + b*y <= c1
of the claim does not hold in general (the scan start may overshoot
the upper support line after discrete re-anchoring). -/
theorem c3_scan_strip_invariant :
    (∀ (s : AdScanO2) (fuel : ℕ) (l : List Pt2i), s.first fuel = some l →
      ∀ p ∈ l, s.dlc2 ≤ s.dla * p.x + s.dlb * p.y ∧ s.xmin ≤ p.x ∧
        p.x < s.xmax ∧ s.ymin ≤ p.y ∧ p.y < s.ymax) ∧
    (∀ (s : AdScanO2) (fuel : ℕ) (r : AdScanO2 × List Pt2i),
      s.nextOnLeft fuel = some r →
      ∀ p ∈ r.2, s.dlc2 ≤ s.dla * p.x + s.dlb * p.y ∧ s.xmin ≤ p.x ∧
        p.x < s.xmax ∧ s.ymin ≤ p.y ∧ p.y < s.ymax) ∧
    (∀ (s : AdScanO2) (fuel : ℕ) (r : AdScanO2 × List Pt2i),
      s.nextOnRight fuel = some r →
      ∀ p ∈ r.2, s.dlc2 ≤ s.dla * p.x + s.dlb * p.y ∧ s.xmin ≤ p.x ∧
        p.x < s.xmax ∧ s.ymin ≤ p.y ∧ p.y < s.ymax) ∧
    (∀ (s : AdScanO2) (fuel : ℕ) (skip : ℤ) (r : AdScanO2 × List Pt2i),
      s.skipLeft fuel skip = some r →
      ∀ p ∈ r.2, s.dlc2 ≤ s.dla * p.x + s.dlb * p.y ∧ s.xmin ≤ p.x ∧
        p.x < s.xmax ∧ s.ymin ≤ p.y ∧ p.y < s.ymax) ∧
    (∀ (s : AdScanO2) (fuel : ℕ) (skip : ℤ) (r : AdScanO2 × List Pt2i),
      s.skipRight fuel skip = some r →
      ∀ p ∈ r.2, s.dlc2 ≤ s.dla * p.x + s.dlb * p.y ∧ s.xmin ≤ p.x ∧
        p.x < s.xmax ∧ s.ymin ≤ p.y ∧ p.y < s.ymax) := by
  refine ⟨?_, ?_, ?_, ?_, ?_⟩
  · intro s fuel l heq
    exact computeScan_mem s fuel _ l heq
  · intro s fuel r heq
    unfold AdScanO2.nextOnLeft at heq
    obtain ⟨c, hadj, hmap⟩ := Option.bind_eq_some.mp heq
    obtain ⟨scan, hscan, hr⟩ := Option.map_eq_some'.mp hmap
    subst hr
    exact computeScan_mem s fuel c scan hscan
  · intro s fuel r heq
    unfold AdScanO2.nextOnRight at heq
    obtain ⟨c, hadj, hmap⟩ := Option.bind_eq_some.mp heq
    obtain ⟨scan, hscan, hr⟩ := Option.map_eq_some'.mp hmap
    subst hr
    exact computeScan_mem s fuel c scan hscan
  · intro s fuel skip r heq
    unfold AdScanO2.skipLeft at heq
    obtain ⟨c, hadj, hmap⟩ := Option.bind_eq_some.mp heq
    obtain ⟨scan, hscan, hr⟩ := Option.map_eq_some'.mp hmap
    subst hr
    exact computeScan_mem s fuel c scan hscan
  · intro s fuel skip r heq
    unfold AdScanO2.skipRight at heq
    obtain ⟨c, hadj, hmap⟩ := Option.bind_eq_some.mp heq
    obtain ⟨scan, hscan, hr⟩ := Option.map_eq_some'.mp hmap
    subst hr
    exact computeScan_mem s fuel c scan hscan

/-- Witness for c3_scan_strip_invariant: the central scan of the
concrete scanner of the counterexample contains (0, 0), which
satisfies the lower support bound and the rectangle. -/
theorem c3_scan_strip_invariant_witness :
    (AdScanO2.first
        ⟨-10, -10, 10, 10, [true], 1, -1, 1, -1, 0, 0, 1, -2, 2, 0, 1, -2, 2⟩
        10 = some [⟨1, -1⟩, ⟨0, 0⟩]) ∧
    ((⟨-10, -10, 10, 10, [true], 1, -1, 1, -1, 0, 0, 1, -2, 2, 0, 1, -2, 2⟩
        : AdScanO2).dlc2 ≤
      (⟨-10, -10, 10, 10, [true], 1, -1, 1, -1, 0, 0, 1, -2, 2, 0, 1, -2, 2⟩
        : AdScanO2).dla * 0 +
      (⟨-10, -10, 10, 10, [true], 1, -1, 1, -1, 0, 0, 1, -2, 2, 0, 1, -2, 2⟩
        : AdScanO2).dlb * 0 ∧
     (⟨-10, -10, 10, 10, [true], 1, -1, 1, -1, 0, 0, 1, -2, 2, 0, 1, -2, 2⟩
        : AdScanO2).xmin ≤ 0 ∧
     (0 : ℤ) < (⟨-10, -10, 10, 10, [true], 1, -1, 1, -1, 0, 0, 1, -2, 2, 0,
        1, -2, 2⟩ : AdScanO2).xmax ∧
     (⟨-10, -10, 10, 10, [true], 1, -1, 1, -1, 0, 0, 1, -2, 2, 0, 1, -2, 2⟩
        : AdScanO2).ymin ≤ 0 ∧
     (0 : ℤ) < (⟨-10, -10, 10, 10, [true], 1, -1, 1, -1, 0, 0, 1, -2, 2, 0,
        1, -2, 2⟩ : AdScanO2).ymax) :=
  ⟨by decide,
    c3_scan_strip_invariant.1
      ⟨-10, -10, 10, 10, [true], 1, -1, 1, -1, 0, 0, 1, -2, 2, 0, 1, -2, 2⟩
      10 [⟨1, -1⟩, ⟨0, 0⟩] (by decide) ⟨0, 0⟩ (by simp)⟩

end AMREL
